import Mathlib

/-!
Verification development for the TabSorter AI Chrome extension
(Bluelq/ChromeTabsorter).

The development shallowly embeds the semantic-grouping engine of the
repository:

* the similarity clustering of `RealAIProcessor` (offscreen AI processor,
  `groupTabsBySimilarity` / `calculateAverageSimilarity` /
  `cosineSimilarity`),
* the label generator (`generateGroupLabels` / `extractCommonTheme` /
  `calculateGroupCohesion`),
* the embedding generator with its bounded insertion-order cache
  (`generateEmbedding` / `generateEmbeddings`),
* the initialization state machine (`performInitialization`),
* the unbounded cache of the alternative `SimpleAIProcessor`,
* the domain-based fallback grouping of the background service worker
  (`groupTabsByDomain` / `generateGroupLabel`).

JavaScript numbers are modelled as real numbers (`ℝ`); texts as `String`;
the external ONNX inference (`session.run` together with tokenization,
mean pooling and L2 normalization inside the `try` block of
`generateEmbedding`) and the host `URL` parser are modelled as explicit
oracle functions, since both are host-provided effects.  Everything else
is translated directly from the JavaScript source.
-/

/-- Tab descriptor as read from the host environment.  The engine only
reads `title` and `url`. -/
structure Tab where
  id : Nat
  title : String
  url : String
  pinned : Bool
deriving DecidableEq, Inhabited, Repr

namespace RealAI

/-- Sum of pairwise products accumulated by the `dotProduct` variable of
`RealAIProcessor.cosineSimilarity` (the JS loop runs over the indices of
`a`; embeddings compared by the engine always have equal length, which
`zipWith` reflects). -/
def dotProduct (a b : List ℝ) : ℝ :=
  (List.zipWith (fun x y => x * y) a b).sum

/-- Sum of squares accumulated by the `normA`/`normB` variables of
`RealAIProcessor.cosineSimilarity`. -/
def normSq (a : List ℝ) : ℝ :=
  (a.map (fun x => x * x)).sum

/-- Cosine similarity of `RealAIProcessor.cosineSimilarity`:
`dotProduct / (Math.sqrt(normA) * Math.sqrt(normB))`, guarded by
`denominator > 0`, otherwise `0`. -/
noncomputable def cosineSimilarity (a b : List ℝ) : ℝ :=
  if Real.sqrt (normSq a) * Real.sqrt (normSq b) > 0 then
    dotProduct a b / (Real.sqrt (normSq a) * Real.sqrt (normSq b))
  else 0

/-- Mean similarity of `RealAIProcessor.calculateAverageSimilarity`: the
candidate embedding is compared against every embedding currently in the
group and the similarities are averaged. -/
noncomputable def calculateAverageSimilarity (embedding : List ℝ)
    (groupEmbeddings : List (List ℝ)) : ℝ :=
  (groupEmbeddings.map (fun e => cosineSimilarity embedding e)).sum /
    (groupEmbeddings.length : ℝ)

/-- Group record built by `groupTabsBySimilarity`: parallel lists of
tabs, embeddings and original indices. -/
structure ClusterGroup where
  tabs : List Tab
  embeddings : List (List ℝ)
  indices : List Nat

/-- Inner loop of `groupTabsBySimilarity` (`for (let j = i + 1; ...)`):
scan the remaining indices in order, skip assigned ones, and add a
candidate to the group when its average similarity against the current
group embeddings exceeds the threshold. -/
noncomputable def addCandidates (tabs : List Tab) (embs : List (List ℝ))
    (threshold : ℝ) :
    List Nat → ClusterGroup → List Nat → ClusterGroup × List Nat
  | [], g, assigned => (g, assigned)
  | j :: js, g, assigned =>
    if assigned.contains j then
      addCandidates tabs embs threshold js g assigned
    else if calculateAverageSimilarity (embs.getD j []) g.embeddings > threshold then
      addCandidates tabs embs threshold js
        ⟨g.tabs ++ [tabs.getD j default], g.embeddings ++ [embs.getD j []],
          g.indices ++ [j]⟩
        (assigned ++ [j])
    else
      addCandidates tabs embs threshold js g assigned

/-- Outer loop of `groupTabsBySimilarity` (`for (let i = 0; ...)`): every
unassigned index seeds a group and is immediately marked assigned; after
the inner scan the group is kept only when it has at least two members.
Iterating the outer index list in order means that at step `i` the tail
of the list is exactly the candidate indices `j > i`. -/
noncomputable def buildGroups (tabs : List Tab) (embs : List (List ℝ))
    (threshold : ℝ) :
    List Nat → List ClusterGroup → List Nat → List ClusterGroup × List Nat
  | [], groups, assigned => (groups, assigned)
  | i :: is, groups, assigned =>
    if assigned.contains i then
      buildGroups tabs embs threshold is groups assigned
    else
      let scanned := addCandidates tabs embs threshold is
        ⟨[tabs.getD i default], [embs.getD i []], [i]⟩ (assigned ++ [i])
      if 2 ≤ scanned.1.tabs.length then
        buildGroups tabs embs threshold is (groups ++ [scanned.1]) scanned.2
      else
        buildGroups tabs embs threshold is groups scanned.2

/-- Clustering core of `RealAIProcessor.groupTabsBySimilarity`, taking the
already-resolved embeddings (the code first awaits
`generateEmbeddings(tabTexts)` and then runs this synchronous loop).
Returns the groups together with
`ungrouped = tabs.filter((_, i) => !assigned.has(i))`. -/
noncomputable def groupTabsBySimilarity (tabs : List Tab)
    (embs : List (List ℝ)) (threshold : ℝ) :
    List ClusterGroup × List Tab :=
  let r := buildGroups tabs embs threshold (List.range tabs.length) [] []
  (r.1, (tabs.enum.filter (fun p => !r.2.contains p.1)).map (fun p => p.2))

/-- Total number of tabs placed into emitted groups. -/
def groupedTabCount (r : List ClusterGroup × List Tab) : Nat :=
  (r.1.map (fun g => g.tabs.length)).sum

/-- Modelled from the spec wording for the refinement claim: cosine
similarity is `dot(a,b) / (‖a‖·‖b‖)`, defined as 0 when either argument
has norm 0. -/
noncomputable def specCosine (a b : List ℝ) : ℝ :=
  if Real.sqrt (normSq a) = 0 ∨ Real.sqrt (normSq b) = 0 then 0
  else dotProduct a b / (Real.sqrt (normSq a) * Real.sqrt (normSq b))

/-- Modelled from the spec wording: the arithmetic mean of the cosine
similarities between the candidate's embedding and every embedding
currently in the group. -/
noncomputable def specMeanSimilarity (e : List ℝ) (group : List (List ℝ)) : ℝ :=
  (group.map (fun x => specCosine e x)).sum / (group.length : ℝ)

/-- Modelled from the spec wording: scan all subsequent unassigned items
in index order and add a candidate exactly when its mean similarity
against the current group strictly exceeds the threshold (the joined
embedding then participates in the mean for later candidates). -/
noncomputable def specScan (tabs : List Tab) (embs : List (List ℝ))
    (threshold : ℝ) :
    List Nat → ClusterGroup → List Nat → ClusterGroup × List Nat
  | [], g, assigned => (g, assigned)
  | j :: js, g, assigned =>
    if assigned.contains j then
      specScan tabs embs threshold js g assigned
    else if specMeanSimilarity (embs.getD j []) g.embeddings > threshold then
      specScan tabs embs threshold js
        ⟨g.tabs ++ [tabs.getD j default], g.embeddings ++ [embs.getD j []],
          g.indices ++ [j]⟩
        (assigned ++ [j])
    else
      specScan tabs embs threshold js g assigned

/-- Modelled from the spec wording: iterate items by original index, the
first unassigned item seeds a new group, after scanning a group with at
least two members is emitted, otherwise its sole member goes to
`ungrouped`. -/
noncomputable def specBuild (tabs : List Tab) (embs : List (List ℝ))
    (threshold : ℝ) :
    List Nat → List ClusterGroup → List Tab → List Nat →
      List ClusterGroup × List Tab
  | [], groups, ungrouped, _ => (groups, ungrouped)
  | i :: is, groups, ungrouped, assigned =>
    if assigned.contains i then
      specBuild tabs embs threshold is groups ungrouped assigned
    else
      let scanned := specScan tabs embs threshold is
        ⟨[tabs.getD i default], [embs.getD i []], [i]⟩ (assigned ++ [i])
      if 2 ≤ scanned.1.tabs.length then
        specBuild tabs embs threshold is (groups ++ [scanned.1]) ungrouped scanned.2
      else
        specBuild tabs embs threshold is groups
          (ungrouped ++ [tabs.getD i default]) scanned.2

/-- Modelled from the spec wording: the complete greedy clustering
`cluster(items, threshold)`. -/
noncomputable def specCluster (tabs : List Tab) (embs : List (List ℝ))
    (threshold : ℝ) : List ClusterGroup × List Tab :=
  specBuild tabs embs threshold (List.range tabs.length) [] [] []

end RealAI

namespace JsStr

/-- Character-wise test that `pat` occurs at the start of `l`. -/
def hasPrefixChars : List Char → List Char → Bool
  | [], _ => true
  | _ :: _, [] => false
  | c :: cs, d :: ds => c == d && hasPrefixChars cs ds

/-- JavaScript `String.prototype.includes`: substring containment. -/
def containsChars (pat : List Char) : List Char → Bool
  | [] => hasPrefixChars pat []
  | d :: ds => hasPrefixChars pat (d :: ds) || containsChars pat ds

/-- JavaScript `toLowerCase` on the character content relevant here. -/
def lower (s : String) : String := String.mk (s.data.map Char.toLower)

/-- JavaScript `charAt(0).toUpperCase() + slice(1)` (empty input maps to
the empty string, as in JS). -/
def capitalize (s : String) : String :=
  match s.data with
  | [] => ""
  | c :: cs => String.mk (Char.toUpper c :: cs)

/-- JavaScript `replace(pat, '')` with a plain-string pattern: remove the
first occurrence of `pat`, leave the string unchanged when `pat` does
not occur. -/
def removeFirst (pat : List Char) : List Char → List Char
  | [] => []
  | c :: cs =>
    if hasPrefixChars pat (c :: cs) then List.drop pat.length (c :: cs)
    else c :: removeFirst pat cs

/-- JavaScript `split(c)[0]`: the prefix before the first occurrence of
the character `c` (the whole string when `c` does not occur). -/
def beforeChar (c : Char) (s : String) : String :=
  String.mk (s.data.takeWhile (fun d => d != c))

end JsStr

/-- Insert into a sorted list, keeping the new element after every
element that strictly precedes it according to `prec`. -/
def stableInsert (prec : α → α → Bool) (a : α) : List α → List α
  | [] => [a]
  | b :: l => if prec b a then b :: stableInsert prec a l else a :: b :: l

/-- JavaScript `Array.prototype.sort` with a consistent comparator is
specified to be stable, which determines its output uniquely; an
insertion sort that never reorders equivalent elements implements
exactly these semantics.  `prec a b` means the comparator puts `a`
strictly before `b`. -/
def stableSort (prec : α → α → Bool) : List α → List α
  | [] => []
  | a :: l => stableInsert prec a (stableSort prec l)

/-- First maximum of a list by the key `f`: a later element replaces the
current best only when its key is strictly larger, so ties resolve to
the earliest element. -/
def firstMaxAux (f : α → Nat) : α → List α → α
  | best, [] => best
  | best, x :: l => if f best < f x then firstMaxAux f x l else firstMaxAux f best l

namespace RealAI

/-- Category → keyword-list taxonomy of `extractCommonTheme`, in
declaration order. -/
def categories : List (String × List String) := [
  ("Development", ["github", "stackoverflow", "npm", "code", "api", "dev",
    "programming", "debug"]),
  ("Research", ["arxiv", "scholar", "paper", "research", "study", "academic",
    "journal"]),
  ("Social", ["twitter", "facebook", "linkedin", "reddit", "social",
    "instagram"]),
  ("Shopping", ["amazon", "ebay", "shop", "store", "buy", "cart", "product"]),
  ("Media", ["youtube", "netflix", "spotify", "video", "music", "watch",
    "stream"]),
  ("News", ["news", "cnn", "bbc", "article", "times", "post", "daily"]),
  ("Documentation", ["docs", "documentation", "guide", "tutorial", "manual",
    "reference"]),
  ("Email", ["mail", "gmail", "outlook", "inbox", "message"]),
  ("Work", ["slack", "teams", "jira", "confluence", "asana", "trello"]),
  ("AI/ML", ["hugging", "openai", "anthropic", "model", "llm", "neural",
    "machine learning"]),
  ("Design", ["figma", "sketch", "adobe", "design", "canva", "dribbble"])]

/-- Emoji table of `extractCommonTheme`. -/
def emojis : List (String × String) := [
  ("Development", "💻"), ("Research", "🔬"), ("Social", "💬"),
  ("Shopping", "🛒"), ("Media", "🎬"), ("News", "📰"),
  ("Documentation", "📚"), ("Email", "📧"), ("Work", "💼"),
  ("AI/ML", "🤖"), ("Design", "🎨")]

/-- Corpus `[...titles, ...domains].join(' ').toLowerCase()` of
`extractCommonTheme`. -/
def allGroupText (titles domains : List String) : String :=
  JsStr.lower (String.intercalate " " (titles ++ domains))

/-- Keyword scores of `extractCommonTheme`: for each category the number
of its keywords occurring as substrings of the corpus
(`keywords.filter(keyword => allText.includes(keyword)).length`). -/
def categoryScores (text : String) : List (String × Nat) :=
  categories.map (fun p =>
    (p.1, (p.2.filter (fun kw => JsStr.containsChars kw.data text.data)).length))

/-- Comparator of `sort((a, b) => b[1] - a[1])`: an entry precedes
another exactly when its score is strictly greater. -/
def scoreGT (a b : String × Nat) : Bool := b.2 < a.2

/-- Domain fallback of `extractCommonTheme`: title-cased first dot
segment of `domains[0]`, or the generic placeholder without domains. -/
def domainFallback (domains : List String) : String :=
  match domains with
  | [] => "📑 Group"
  | d :: _ => "🌐 " ++ JsStr.capitalize (JsStr.beforeChar '.' d)

/-- The `RealAIProcessor.extractCommonTheme` label algorithm: score the
taxonomy over the corpus, take `sort((a,b) => b[1]-a[1])[0]`, emit the
emoji-prefixed category when its score is positive, otherwise fall back
to the domain label. -/
def extractCommonTheme (titles domains : List String) : String :=
  match (stableSort scoreGT (categoryScores (allGroupText titles domains))).head? with
  | some best =>
    if 0 < best.2 then ((emojis.lookup best.1).getD "📑") ++ " " ++ best.1
    else domainFallback domains
  | none => domainFallback domains

/-- Sum of the upper-triangle pairwise similarities computed by the
double loop of `calculateGroupCohesion`. -/
noncomputable def pairSimSum : List (List ℝ) → ℝ
  | [] => 0
  | e :: rest => (rest.map (fun x => cosineSimilarity e x)).sum + pairSimSum rest

/-- Number of comparisons made by that double loop. -/
def pairCount : List α → Nat
  | [] => 0
  | _ :: rest => rest.length + pairCount rest

/-- The `RealAIProcessor.calculateGroupCohesion` confidence value. -/
noncomputable def calculateGroupCohesion (embeddings : List (List ℝ)) : ℝ :=
  if embeddings.length < 2 then 1
  else pairSimSum embeddings / (pairCount embeddings : ℝ)

/-- Labeled group produced by `generateGroupLabels`. -/
structure LabeledGroup where
  label : String
  tabs : List Tab
  confidence : ℝ

/-- Distinct registrable domains of a group in encounter order: the JS
`Set` filled while iterating `group.tabs`, with `www.` stripped like the
source does; URL parsing is the host `URL` class, modelled by the
`parseHost` oracle, and unparsable URLs are skipped by the empty
`catch`. -/
def groupDomains (parseHost : String → Option String) (tabs : List Tab) :
    List String :=
  tabs.foldl (fun ds t =>
    match parseHost t.url with
    | some host =>
      let d := String.mk (JsStr.removeFirst "www.".data host.data)
      if ds.contains d then ds else ds ++ [d]
    | none => ds) []

/-- The `RealAIProcessor.generateGroupLabels` loop (`t.title || ''` is
the title itself here, titles being total strings in the model). -/
noncomputable def generateGroupLabels (parseHost : String → Option String)
    (groups : List ClusterGroup) : List LabeledGroup :=
  groups.map (fun g =>
    ⟨extractCommonTheme (g.tabs.map (fun t => t.title))
        (groupDomains parseHost g.tabs),
      g.tabs,
      calculateGroupCohesion g.embeddings⟩)

/-- Modelled from the spec wording and the amended claim: select the
category with the highest score (declaration-order tie-break via
`firstMaxAux`), attach its emoji when the score is positive; otherwise
fall back to the title-cased first distinct domain, or the placeholder
label. -/
def labelSpec (titles domains : List String) : String :=
  match categoryScores (allGroupText titles domains) with
  | [] => domainFallback domains
  | s :: rest =>
    let best := firstMaxAux (fun p => p.2) s rest
    if 0 < best.2 then ((emojis.lookup best.1).getD "📑") ++ " " ++ best.1
    else domainFallback domains

/-- Per-tab domain list with multiplicity (what "the most common domain
in the group" of the claim refers to). -/
def tabDomains (parseHost : String → Option String) (tabs : List Tab) :
    List String :=
  tabs.filterMap (fun t =>
    (parseHost t.url).map (fun h => String.mk (JsStr.removeFirst "www.".data h.data)))

/-- Modelled from the claim wording: the most common domain of a group,
earliest-first on ties. -/
def mostCommonDomain (parseHost : String → Option String) (tabs : List Tab) :
    Option String :=
  match tabDomains parseHost tabs with
  | [] => none
  | d :: ds =>
    some (firstMaxAux (fun x => (tabDomains parseHost tabs).count x) d ds)

end RealAI

namespace RealAI

/-- Lifecycle states of the initialization state machine (the spec names
`ORT_CONFIGURED`, `WASM_READY` and `SESSION_READY` as
`BACKEND_CONFIGURED`, `RUNTIME_READY` and `MODEL_READY`). -/
inductive LifecycleState where
  | BOOT
  | ORT_CONFIGURED
  | WASM_READY
  | SESSION_READY
  | TOKENIZER_READY
  | WARMED_UP
  | READY
  | ERROR
deriving DecidableEq, Repr

/-- ONNX inference session handle; the processor only ever reads the
input and output name lists. -/
structure Session where
  inputNames : List String
  outputNames : List String
deriving DecidableEq, Repr

/-- Mutable state of a `RealAIProcessor` instance.  `trace` records every
state passed to `transitionToState` in order, `errorStage` the `stage`
detail attached to an `ERROR` transition. -/
structure Processor where
  currentState : LifecycleState
  modelReady : Bool
  session : Option Session
  tokenizerLoaded : Bool
  cache : List (String × List ℝ)
  trace : List LifecycleState
  errorStage : Option LifecycleState

/-- Constructor state of `RealAIProcessor`. -/
def initialProcessor : Processor :=
  ⟨LifecycleState.BOOT, false, none, false, [], [], none⟩

/-- The `transitionToState` method: update `currentState` and log the
transition.  The milestone validation it triggers only logs its verdict
(`console.warn` on failure) and never alters control flow. -/
def transitionToState (p : Processor) (s : LifecycleState) : Processor :=
  { p with currentState := s, trace := p.trace ++ [s] }

/-- The catch-all of `performInitialization`:
`transitionToState(ERROR, { stage: this.currentState })`, which records
the previous (last successfully entered) state as the failing-stage
detail. -/
def errorTransition (p : Processor) : Processor :=
  { p with errorStage := some p.currentState,
           currentState := LifecycleState.ERROR,
           trace := p.trace ++ [LifecycleState.ERROR] }

/-- The `validateMilestone` check for `SESSION_READY`:
`this.session && this.session.inputNames && this.session.outputNames`.
In JavaScript an array object is truthy even when empty, so the check
degenerates to the presence of the session; a failing check is only
logged and never blocks the transition. -/
def validateSessionMilestone (session : Option Session) : Bool :=
  session.isSome

/-- Result and state of `RealAIProcessor.generateEmbedding`.
`Except.error` models the `throw new Error('AI model not ready')` guard
(`!this.modelReady || !this.session`); `Except.ok none` models the
`catch` branch that swallows internal inference failures and returns
`null`; `Except.ok (some v)` is a produced embedding.  The body of the
`try` block — tokenization, tensor construction, `session.run`, mean
pooling and L2 normalization — is an interaction with the host ONNX
runtime, modelled by the `infer` oracle (`none` meaning some step
threw).  A successful result is appended to the cache and the oldest
(first-inserted) entry is evicted when the size exceeds 500: JS `Map`
iteration order is insertion order and keys are only inserted on cache
misses. -/
def generateEmbedding (p : Processor) (infer : String → Option (List ℝ))
    (text : String) : Except String (Option (List ℝ)) × Processor :=
  match p.modelReady, p.session with
  | false, _ => (Except.error "AI model not ready", p)
  | true, none => (Except.error "AI model not ready", p)
  | true, some _ =>
    match p.cache.lookup text with
    | some v => (Except.ok (some v), p)
    | none =>
      match infer text with
      | some result =>
        let cache1 := p.cache ++ [(text, result)]
        (Except.ok (some result),
          { p with cache := if 500 < cache1.length then cache1.tail else cache1 })
      | none => (Except.ok none, p)

/-- The `RealAIProcessor.generateEmbeddings` batch loop: a `null` item
result is replaced by `new Array(384).fill(0)`; the not-ready `throw`
coming out of `generateEmbedding` is not caught here. -/
def generateEmbeddings (infer : String → Option (List ℝ)) :
    Processor → List String → Except String (List (List ℝ)) × Processor
  | p, [] => (Except.ok [], p)
  | p, t :: ts =>
    match generateEmbedding p infer t with
    | (Except.error e, p1) => (Except.error e, p1)
    | (Except.ok r, p1) =>
      match generateEmbeddings infer p1 ts with
      | (Except.error e, p2) => (Except.error e, p2)
      | (Except.ok vs, p2) =>
        (Except.ok ((match r with
          | some emb => emb
          | none => List.replicate 384 0) :: vs), p2)

/-- Expected output of the batch loop: per-item results with the zero
vector substituted for failed items, threading the cache exactly as
`generateEmbedding` does. -/
def batchExpected (infer : String → Option (List ℝ)) :
    List (String × List ℝ) → List String → List (List ℝ)
  | _, [] => []
  | cache, t :: ts =>
    match cache.lookup t with
    | some v => v :: batchExpected infer cache ts
    | none =>
      match infer t with
      | some e =>
        let cache1 := cache ++ [(t, e)]
        e :: batchExpected infer
          (if 500 < cache1.length then cache1.tail else cache1) ts
      | none => List.replicate 384 0 :: batchExpected infer cache ts

/-- Environment of one initialization run: whether the ONNX runtime
script is loaded (`typeof ort !== 'undefined'`), the outcome of the
model fetch plus `InferenceSession.create` (`none` = threw), the outcome
of the tokenizer fetches, and the inference oracle used by the warm-up
embedding.  `verifyWASMFiles` wraps every probe in its own `try/catch`
that only warns, so that stage never fails. -/
structure InitEnv where
  ortLoaded : Bool
  createSession : Option Session
  tokenizerFetch : Bool
  infer : String → Option (List ℝ)

/-- The `RealAIProcessor.performInitialization` sequence: transition
through the six milestones, with any thrown error caught by the final
`catch` (`errorTransition`).  `modelReady` is set right after the
`TOKENIZER_READY` transition; the warm-up runs `generateEmbedding` on
the probe string and fails on a `null` or non-384-length result. -/
def performInitialization (env : InitEnv) : Processor :=
  let p0 := transitionToState initialProcessor LifecycleState.BOOT
  if env.ortLoaded = false then errorTransition p0
  else
    let p1 := transitionToState p0 LifecycleState.ORT_CONFIGURED
    let p2 := transitionToState p1 LifecycleState.WASM_READY
    match env.createSession with
    | none => errorTransition p2
    | some s =>
      let p3 := transitionToState { p2 with session := some s }
        LifecycleState.SESSION_READY
      let _sessionChecked := validateSessionMilestone p3.session
      if env.tokenizerFetch = false then errorTransition p3
      else
        let p4 := { transitionToState { p3 with tokenizerLoaded := true }
          LifecycleState.TOKENIZER_READY with modelReady := true }
        match generateEmbedding p4 env.infer "warmup test" with
        | (Except.error _, pw) => errorTransition pw
        | (Except.ok none, pw) => errorTransition pw
        | (Except.ok (some emb), pw) =>
          if emb.length = 384 then
            transitionToState (transitionToState pw LifecycleState.WARMED_UP)
              LifecycleState.READY
          else errorTransition pw

end RealAI

namespace SimpleAI

/-- The `SimpleAIProcessor.generateEmbedding` of the alternative
offscreen processor: the same lookup-then-insert cache protocol, but
with no size bound and no eviction.  The deterministic inner computation
of `LocalModelProcessor.generateEmbedding` (pure arithmetic that cannot
throw once the model data is loaded) is abstracted as the total function
`embed`; the guard is the `modelReady` flag. -/
def generateEmbedding (modelReady : Bool) (embed : String → List ℝ)
    (cache : List (String × List ℝ)) (text : String) :
    Except String (List ℝ) × List (String × List ℝ) :=
  if modelReady = false then (Except.error "Model not initialized", cache)
  else
    match cache.lookup text with
    | some v => (Except.ok v, cache)
    | none => (Except.ok (embed text), cache ++ [(text, embed text)])

end SimpleAI

namespace Background

/-- Registrable-domain key of `TabManager.groupTabsByDomain`: the host
name with the first `www.` occurrence removed when the URL parses
(`new URL`, modelled by the `parseHost` oracle), otherwise the scheme
part `tab.url.split(':')[0]` from the catch branch. -/
def domainKey (parseHost : String → Option String) (url : String) : String :=
  match parseHost url with
  | some host => String.mk (JsStr.removeFirst "www.".data host.data)
  | none => JsStr.beforeChar ':' url

/-- Append a tab to its domain bucket, creating the bucket at the end on
first encounter (JS `Map` preserves key insertion order). -/
def addToBucket (key : String) (t : Tab) :
    List (String × List Tab) → List (String × List Tab)
  | [] => [(key, [t])]
  | (k, ts) :: rest =>
    if k = key then (k, ts ++ [t]) :: rest
    else (k, ts) :: addToBucket key t rest

/-- Bucket-filling loop of `groupTabsByDomain`. -/
def domainBuckets (parseHost : String → Option String) (tabs : List Tab) :
    List (String × List Tab) :=
  tabs.foldl (fun m t => addToBucket (domainKey parseHost t.url) t m) []

/-- Group record returned by `groupTabsByDomain`. -/
structure DomainGroup where
  label : String
  domain : String
  tabs : List Tab
  count : Nat
deriving DecidableEq, Repr

/-- Static label table of `generateGroupLabel`.  The string literals are
byte-exact to the source file, whose emoji bytes are double-encoded
(mojibake) in the repository. -/
def labelTable : List (String × String) := [
  ("github.com", "ðŸ’» Development"),
  ("stackoverflow.com", "ðŸ’» Development"),
  ("google.com", "ðŸ” Search"),
  ("youtube.com", "ðŸŽ¥ Media"),
  ("twitter.com", "ðŸ’¬ Social"),
  ("linkedin.com", "ðŸ’¼ Professional"),
  ("reddit.com", "ðŸ’¬ Social"),
  ("docs.google.com", "ðŸ“„ Documents"),
  ("mail.google.com", "ðŸ“§ Email")]

/-- The `generateGroupLabel` table lookup with title-cased-domain
fallback (the `tabs` parameter is unused in the source as well). -/
def generateGroupLabel (domain : String) (_tabs : List Tab) : String :=
  match labelTable.lookup domain with
  | some l => l
  | none =>
    "ðŸŒ " ++ JsStr.capitalize (JsStr.beforeChar '.' domain)

/-- The `TabManager.groupTabsByDomain` fallback grouping: bucket tabs by
domain key, build group records with `count = tabs.length`, keep only
groups with at least two tabs, and sort by descending count (stable). -/
def groupTabsByDomain (parseHost : String → Option String) (tabs : List Tab) :
    List DomainGroup :=
  stableSort (fun a b => b.count < a.count)
    (((domainBuckets parseHost tabs).map (fun e =>
        ⟨generateGroupLabel e.1 e.2, e.1, e.2, e.2.length⟩)).filter
      (fun g => 2 ≤ g.count))

end Background

/-!
Concrete fixtures used by the closed theorems below.  The four vectors
`v0`–`v3` are exact rational points of the unit sphere in `ℝ³`, so all
their cosine similarities are rational.
-/

noncomputable def v0 : List ℝ := [-200/569, -480/569, 231/569]

noncomputable def v1 : List ℝ := [0, 0, 1]

noncomputable def v2 : List ℝ := [120/169, 0, 119/169]

noncomputable def v3 : List ℝ := [-7/27, 14/27, 22/27]

def tab0 : Tab := ⟨0, "t0", "https://a0.example/", false⟩

def tab1 : Tab := ⟨1, "t1", "https://a1.example/", false⟩

def tab2 : Tab := ⟨2, "t2", "https://a2.example/", false⟩

def tab3 : Tab := ⟨3, "t3", "https://a3.example/", false⟩

def tabs4 : List Tab := [tab0, tab1, tab2, tab3]

noncomputable def embs4 : List (List ℝ) := [v0, v1, v2, v3]

/-- One-dimensional zero embedding (the shape of the fallback vector is
irrelevant to the similarity guard, which only inspects the norm). -/
noncomputable def zeroVec : List ℝ := [0]

noncomputable def unitVec : List ℝ := [1]

/-- Session whose output-name list is empty (the C4 scenario). -/
def emptyOutputSession : RealAI.Session :=
  ⟨["input_ids", "attention_mask", "token_type_ids"], []⟩

/-- Well-formed session. -/
def goodSession : RealAI.Session :=
  ⟨["input_ids", "attention_mask", "token_type_ids"], ["last_hidden_state"]⟩

/-- Inference oracle that always yields a 384-dimensional embedding. -/
noncomputable def zeroInfer : String → Option (List ℝ) :=
  fun _ => some (List.replicate 384 0)

/-- Initialization environment where everything succeeds but the created
session reports an empty output-name list. -/
noncomputable def envEmptyOutputNames : RealAI.InitEnv :=
  ⟨true, some emptyOutputSession, true, zeroInfer⟩

/-- Initialization environment where the warm-up inference fails (the
inference oracle returns `null` for every text). -/
def envWarmupFails : RealAI.InitEnv :=
  ⟨true, some goodSession, true, fun _ => none⟩

/-- Distinct cache key of length `n`. -/
def aKey (n : Nat) : String := String.mk (List.replicate n 'a')

/-- Cache holding `n` distinct keys in insertion order. -/
def cacheOfSize (n : Nat) : List (String × List ℝ) :=
  (List.range n).map (fun i => (aKey i, []))

/-- Processor in the READY state with an `n`-entry cache. -/
def readyProcessor (cache : List (String × List ℝ)) : RealAI.Processor :=
  ⟨RealAI.LifecycleState.READY, true, some goodSession, true, cache,
    [RealAI.LifecycleState.BOOT, RealAI.LifecycleState.ORT_CONFIGURED,
      RealAI.LifecycleState.WASM_READY, RealAI.LifecycleState.SESSION_READY,
      RealAI.LifecycleState.TOKENIZER_READY, RealAI.LifecycleState.WARMED_UP,
      RealAI.LifecycleState.READY], none⟩

/-- Inference oracle that succeeds on `"alpha"` only. -/
noncomputable def alphaInfer : String → Option (List ℝ) :=
  fun t => if t = "alpha" then some (List.replicate 384 1) else none

def c8TabA : Tab := ⟨1, "", "https://azz.com/1", false⟩

def c8TabB : Tab := ⟨2, "", "https://qzz.com/1", false⟩

def c8TabC : Tab := ⟨3, "", "https://qzz.com/2", false⟩

/-- Host URL oracle for the label counterexample group. -/
def c8Host : String → Option String := fun u =>
  if u = "https://azz.com/1" then some "azz.com"
  else if u = "https://qzz.com/1" then some "qzz.com"
  else if u = "https://qzz.com/2" then some "qzz.com"
  else none

/-- Group with one `azz.com` tab followed by two `qzz.com` tabs; no
taxonomy keyword occurs in its corpus. -/
noncomputable def c8Group : RealAI.ClusterGroup :=
  ⟨[c8TabA, c8TabB, c8TabC], [], [0, 1, 2]⟩

def c9TabA : Tab := ⟨1, "A", "https://www.ex.com/1", false⟩

def c9TabB : Tab := ⟨2, "B", "https://ex.com/2", false⟩

def c9TabC : Tab := ⟨3, "C", "https://solo.org/", false⟩

def c9Tabs : List Tab := [c9TabA, c9TabB, c9TabC]

/-- Host URL oracle for the domain-grouping witness. -/
def c9Host : String → Option String := fun u =>
  if u = "https://www.ex.com/1" then some "www.ex.com"
  else if u = "https://ex.com/2" then some "ex.com"
  else if u = "https://solo.org/" then some "solo.org"
  else none

/-- Expected group of the domain-grouping witness (fallback label is
built from the byte-exact source prefix). -/
def c9ExpectedGroup : Background.DomainGroup :=
  ⟨"ðŸŒ Ex", "ex.com", [c9TabA, c9TabB], 2⟩

def c10TabZ : Tab := ⟨0, "z", "https://z.example/", false⟩

def c10TabU : Tab := ⟨1, "u", "https://u.example/", false⟩

/-!
Theorems.  Shared helper lemmas come first; every claim then has exactly
one theorem, plus a counterexample or witness where its status requires
one.
-/

open RealAI

lemma cosineSimilarity_of_unit {a b : List ℝ} (ha : normSq a = 1)
    (hb : normSq b = 1) : cosineSimilarity a b = dotProduct a b := by
  rw [cosineSimilarity, ha, hb, Real.sqrt_one]
  norm_num

lemma normSq_v0 : normSq v0 = 1 := by norm_num [normSq, v0]

lemma normSq_v1 : normSq v1 = 1 := by norm_num [normSq, v1]

lemma normSq_v2 : normSq v2 = 1 := by norm_num [normSq, v2]

lemma normSq_v3 : normSq v3 = 1 := by norm_num [normSq, v3]

lemma cos_v1_v0 : cosineSimilarity v1 v0 = 231/569 := by
  rw [cosineSimilarity_of_unit normSq_v1 normSq_v0]
  norm_num [dotProduct, v0, v1]

lemma cos_v2_v0 : cosineSimilarity v2 v0 = 3489/96161 := by
  rw [cosineSimilarity_of_unit normSq_v2 normSq_v0]
  norm_num [dotProduct, v0, v2]

lemma cos_v2_v1 : cosineSimilarity v2 v1 = 119/169 := by
  rw [cosineSimilarity_of_unit normSq_v2 normSq_v1]
  norm_num [dotProduct, v1, v2]

lemma cos_v3_v0 : cosineSimilarity v3 v0 = -238/15363 := by
  rw [cosineSimilarity_of_unit normSq_v3 normSq_v0]
  norm_num [dotProduct, v0, v3]

lemma cos_v3_v1 : cosineSimilarity v3 v1 = 22/27 := by
  rw [cosineSimilarity_of_unit normSq_v3 normSq_v1]
  norm_num [dotProduct, v1, v3]

lemma cos_v3_v2 : cosineSimilarity v3 v2 = 1778/4563 := by
  rw [cosineSimilarity_of_unit normSq_v3 normSq_v2]
  norm_num [dotProduct, v2, v3]

/-- Claim C1: the clustering is claimed to return a partition in which
every input tab appears exactly once across groups and `ungrouped`, with
singleton groups reported in `ungrouped`.  The code violates this: every
seed index is added to `assigned` before its group is size-checked, so
the final `tabs.filter((_, i) => !assigned.has(i))` is always empty and
a dropped singleton group's tab appears nowhere.  This theorem evaluates
the code at the failing input — any single-tab list: the result is
`([], [])` for every threshold and embedding, so the lone tab is neither
grouped nor ungrouped. -/
theorem singleTabVanishes (threshold : ℝ) (t : Tab) (e : List ℝ) :
    groupTabsBySimilarity [t] [e] threshold = ([], []) := by
  rfl

/-- Claim C3 counterexample: raising the threshold from `2/5` to `3/5`
on the fixed item set `tabs4`/`embs4` increases the grouped-item count
from 2 (one group `{0, 1}`) to 3 (one group `{1, 2, 3}`), because at the
looser threshold item 1 is absorbed into item 0's group, whose mixed
mean similarity then blocks items 2 and 3. -/
theorem thresholdMonotonicityFails :
    (2/5 : ℝ) ≤ 3/5 ∧
    groupedTabCount (groupTabsBySimilarity tabs4 embs4 (2/5)) = 2 ∧
    groupedTabCount (groupTabsBySimilarity tabs4 embs4 (3/5)) = 3 ∧
    ¬ groupedTabCount (groupTabsBySimilarity tabs4 embs4 (3/5)) ≤
        groupedTabCount (groupTabsBySimilarity tabs4 embs4 (2/5)) := by
  have h1 : groupedTabCount (groupTabsBySimilarity tabs4 embs4 (2/5)) = 2 := by
    norm_num [groupTabsBySimilarity, buildGroups, addCandidates,
      calculateAverageSimilarity, groupedTabCount, List.range_succ,
      tabs4, embs4, cos_v1_v0, cos_v2_v0, cos_v2_v1, cos_v3_v0, cos_v3_v1,
      cos_v3_v2]
  have h2 : groupedTabCount (groupTabsBySimilarity tabs4 embs4 (3/5)) = 3 := by
    norm_num [groupTabsBySimilarity, buildGroups, addCandidates,
      calculateAverageSimilarity, groupedTabCount, List.range_succ,
      tabs4, embs4, cos_v1_v0, cos_v2_v0, cos_v2_v1, cos_v3_v0, cos_v3_v1,
      cos_v3_v2]
  refine ⟨by norm_num, h1, h2, ?_⟩
  rw [h1, h2]
  omega

/-- Claim C3 (amended): the join test itself is monotone in the
threshold — for a fixed group-embedding list, a candidate whose mean
similarity strictly exceeds the higher threshold also exceeds any lower
threshold; the run-level grouped-item count, however, is not monotone,
because raising the threshold changes which embeddings enter a group and
thereby every later mean (see the counterexample). -/
theorem joinTestMonotoneInThreshold (e : List ℝ) (G : List (List ℝ))
    (t1 t2 : ℝ) (hle : t1 ≤ t2)
    (h : calculateAverageSimilarity e G > t2) :
    calculateAverageSimilarity e G > t1 :=
  lt_of_le_of_lt hle h

lemma normSq_unitVec : normSq unitVec = 1 := by norm_num [normSq, unitVec]

lemma avg_unitVec : calculateAverageSimilarity unitVec [unitVec] = 1 := by
  rw [calculateAverageSimilarity]
  simp [cosineSimilarity_of_unit normSq_unitVec normSq_unitVec]
  norm_num [dotProduct, unitVec]

/-- Witness for the amended C3 theorem at a concrete input. -/
theorem joinTestMonotoneInThresholdWitness :
    ((0 : ℝ) ≤ 1/2 ∧ calculateAverageSimilarity unitVec [unitVec] > 1/2) ∧
    calculateAverageSimilarity unitVec [unitVec] > 0 :=
  ⟨⟨by norm_num, by rw [avg_unitVec]; norm_num⟩,
    joinTestMonotoneInThreshold unitVec [unitVec] 0 (1/2) (by norm_num)
      (by rw [avg_unitVec]; norm_num)⟩

lemma cosineSimilarity_eq_specCosine (a b : List ℝ) :
    cosineSimilarity a b = specCosine a b := by
  rw [cosineSimilarity, specCosine]
  rcases (Real.sqrt_nonneg (normSq a)).eq_or_lt with ha | ha
  · have hprod : Real.sqrt (normSq a) * Real.sqrt (normSq b) = 0 := by
      rw [← ha, zero_mul]
    rw [if_neg (by rw [hprod]; exact lt_irrefl 0), if_pos (Or.inl ha.symm)]
  · rcases (Real.sqrt_nonneg (normSq b)).eq_or_lt with hb | hb
    · have hprod : Real.sqrt (normSq a) * Real.sqrt (normSq b) = 0 := by
        rw [← hb, mul_zero]
      rw [if_neg (by rw [hprod]; exact lt_irrefl 0), if_pos (Or.inr hb.symm)]
    · rw [if_pos (mul_pos ha hb), if_neg]
      rintro (h0 | h0)
      · rw [h0] at ha; exact lt_irrefl 0 ha
      · rw [h0] at hb; exact lt_irrefl 0 hb

lemma specMeanSimilarity_eq (e : List ℝ) (G : List (List ℝ)) :
    specMeanSimilarity e G = calculateAverageSimilarity e G := by
  rw [specMeanSimilarity, calculateAverageSimilarity]
  have h : (fun x => specCosine e x) = fun x => cosineSimilarity e x :=
    funext fun x => (cosineSimilarity_eq_specCosine e x).symm
  rw [h]

lemma specScan_eq (tabs : List Tab) (embs : List (List ℝ)) (threshold : ℝ)
    (js : List Nat) :
    ∀ (g : ClusterGroup) (assigned : List Nat),
      specScan tabs embs threshold js g assigned =
        addCandidates tabs embs threshold js g assigned := by
  induction js with
  | nil => intro g assigned; rfl
  | cons j js ih =>
    intro g assigned
    simp only [specScan, addCandidates, specMeanSimilarity_eq]
    split_ifs <;> exact ih _ _

lemma specBuild_groups_eq (tabs : List Tab) (embs : List (List ℝ))
    (threshold : ℝ) (is : List Nat) :
    ∀ (gs : List ClusterGroup) (ung : List Tab) (assigned : List Nat),
      (specBuild tabs embs threshold is gs ung assigned).1 =
        (buildGroups tabs embs threshold is gs assigned).1 := by
  induction is with
  | nil => intro gs ung assigned; rfl
  | cons i is ih =>
    intro gs ung assigned
    simp only [specBuild, buildGroups, specScan_eq]
    split_ifs <;> apply ih

/-- Claim C2: the clustering step function of the code agrees with the
greedy algorithm written out in the spec — same index-order seeding,
same strict mean-similarity join test computed against every current
group member — and the code's guarded cosine (`denominator > 0`)
coincides with the spec's cosine, which is `dot/(‖a‖·‖b‖)` with value 0
when either norm is 0.  The spec-side functions `specCluster` and
`specCosine` are written from the spec wording; the emitted groups agree
on every input (the two sides differ only in the reporting of dropped
singletons, which claim C1 covers). -/
theorem clusterMatchesSpecGreedy :
    (∀ (tabs : List Tab) (embs : List (List ℝ)) (threshold : ℝ),
      (groupTabsBySimilarity tabs embs threshold).1 =
        (specCluster tabs embs threshold).1) ∧
    ∀ a b : List ℝ, cosineSimilarity a b = specCosine a b := by
  refine ⟨fun tabs embs threshold => ?_, cosineSimilarity_eq_specCosine⟩
  simp only [groupTabsBySimilarity, specCluster]
  exact (specBuild_groups_eq tabs embs threshold (List.range tabs.length)
    [] [] []).symm

lemma normSq_of_zero {a : List ℝ} (h : ∀ x ∈ a, x = 0) : normSq a = 0 := by
  rw [normSq]
  apply List.sum_eq_zero
  intro y hy
  rcases List.mem_map.mp hy with ⟨x, hx, rfl⟩
  rw [h x hx]
  ring

lemma cosineSimilarity_zero_left {a : List ℝ} (b : List ℝ)
    (h : ∀ x ∈ a, x = 0) : cosineSimilarity a b = 0 := by
  rw [cosineSimilarity, normSq_of_zero h, Real.sqrt_zero, zero_mul]
  simp

lemma cosineSimilarity_zero_right (a : List ℝ) {b : List ℝ}
    (h : ∀ x ∈ b, x = 0) : cosineSimilarity a b = 0 := by
  rw [cosineSimilarity, normSq_of_zero h, Real.sqrt_zero, mul_zero]
  simp

lemma avg_zero_candidate {z : List ℝ} (h : ∀ x ∈ z, x = 0)
    (G : List (List ℝ)) : calculateAverageSimilarity z G = 0 := by
  rw [calculateAverageSimilarity]
  rw [List.sum_eq_zero, zero_div]
  intro y hy
  rcases List.mem_map.mp hy with ⟨e, _, rfl⟩
  exact cosineSimilarity_zero_left e h

lemma avg_zero_group (e : List ℝ) {z : List ℝ} (h : ∀ x ∈ z, x = 0) :
    calculateAverageSimilarity e [z] = 0 := by
  rw [calculateAverageSimilarity]
  simp [cosineSimilarity_zero_right e h]

lemma addCandidates_no_zero_join (tabs : List Tab) (embs : List (List ℝ))
    (threshold : ℝ) (hthr : 0 < threshold) (k : Nat)
    (hk : ∀ x ∈ embs.getD k [], x = 0) (js : List Nat) :
    ∀ (g : ClusterGroup) (assigned : List Nat), k ∉ g.indices →
      k ∉ (addCandidates tabs embs threshold js g assigned).1.indices := by
  induction js with
  | nil => intro g assigned hg; exact hg
  | cons j js ih =>
    intro g assigned hg
    simp only [addCandidates]
    split_ifs with h1 h2
    · exact ih g assigned hg
    · apply ih
      intro hmem
      rcases List.mem_append.mp hmem with hmem | hmem
      · exact hg hmem
      · have hjk : j = k := (List.mem_singleton.mp hmem).symm
        rw [hjk, avg_zero_candidate hk] at h2
        exact absurd h2 (not_lt.mpr (le_of_lt hthr))
    · exact ih g assigned hg

lemma addCandidates_zero_seed (tabs : List Tab) (embs : List (List ℝ))
    (threshold : ℝ) (hthr : 0 < threshold) {z : List ℝ}
    (hz : ∀ x ∈ z, x = 0) (t : Tab) (k : Nat) (js : List Nat) :
    ∀ assigned : List Nat,
      addCandidates tabs embs threshold js ⟨[t], [z], [k]⟩ assigned =
        (⟨[t], [z], [k]⟩, assigned) := by
  induction js with
  | nil => intro assigned; rfl
  | cons j js ih =>
    intro assigned
    simp only [addCandidates]
    split_ifs with h1 h2
    · exact ih assigned
    · exfalso
      rw [avg_zero_group _ hz] at h2
      exact absurd h2 (not_lt.mpr (le_of_lt hthr))
    · exact ih assigned

lemma buildGroups_no_zero (tabs : List Tab) (embs : List (List ℝ))
    (threshold : ℝ) (hthr : 0 < threshold) (k : Nat)
    (hk : ∀ x ∈ embs.getD k [], x = 0) (is : List Nat) :
    ∀ (gs : List ClusterGroup) (assigned : List Nat),
      (∀ g ∈ gs, k ∉ g.indices) →
      ∀ g ∈ (buildGroups tabs embs threshold is gs assigned).1,
        k ∉ g.indices := by
  induction is with
  | nil => intro gs assigned hgs; exact hgs
  | cons i is ih =>
    intro gs assigned hgs
    simp only [buildGroups]
    split_ifs with h1 h2
    · exact ih gs assigned hgs
    · apply ih
      intro g hg
      rcases List.mem_append.mp hg with hg | hg
      · exact hgs g hg
      · have hgeq := List.mem_singleton.mp hg
        by_cases hik : i = k
        · exfalso
          rw [hik] at h2
          rw [addCandidates_zero_seed tabs embs threshold hthr hk
            (tabs.getD k default) k is (assigned ++ [k])] at h2
          simp at h2
        · rw [hgeq]
          apply addCandidates_no_zero_join tabs embs threshold hthr k hk is
          intro hmem
          exact hik ((List.mem_singleton.mp hmem).symm)
    · exact ih gs _ hgs

lemma zeroVec_all_zero : ∀ x ∈ zeroVec, x = 0 := by
  intro x hx
  simpa [zeroVec] using hx

lemma cos_unitVec_zeroVec : cosineSimilarity unitVec zeroVec = 0 :=
  cosineSimilarity_zero_right unitVec zeroVec_all_zero

/-- Claim C10 counterexample: with a zero-embedding item 0 and a
unit-embedding item 1 at threshold `1/2 > 0`, the zero item never joins
a group — but, contrary to the claim, it is not placed in `ungrouped`
either: both items become dropped singleton seeds and the result is
`([], [])`, so the zero-embedding tab is absent from `ungrouped`. -/
theorem zeroVectorItemNotInUngrouped :
    groupTabsBySimilarity [c10TabZ, c10TabU] [zeroVec, unitVec] (1/2) =
      ([], []) ∧
    (0 : ℝ) < 1/2 ∧
    c10TabZ ∉ (groupTabsBySimilarity [c10TabZ, c10TabU] [zeroVec, unitVec]
      (1/2)).2 := by
  have hb : buildGroups [c10TabZ, c10TabU] [zeroVec, unitVec] (1/2)
      (List.range ([c10TabZ, c10TabU] : List Tab).length) [] [] =
        ([], [0, 1]) := by
    norm_num [buildGroups, addCandidates, calculateAverageSimilarity,
      List.range_succ, cos_unitVec_zeroVec]
  have h : groupTabsBySimilarity [c10TabZ, c10TabU] [zeroVec, unitVec] (1/2) =
      ([], []) := by
    simp only [groupTabsBySimilarity, hb]
    rfl
  exact ⟨h, by norm_num, by rw [h]; simp⟩

/-- Claim C10 (amended): an item whose embedding is the all-zero vector
never joins another item's group and no other item ever joins the group
it seeds (its guarded cosine is 0 against everything, so every join test
fails at a positive threshold); consequently it appears in no emitted
group.  It is, however, not reported in `ungrouped` as the claim states:
it is dropped entirely together with every other singleton seed (see the
counterexample and claim C1). -/
theorem zeroVectorItemNeverGrouped (tabs : List Tab) (embs : List (List ℝ))
    (threshold : ℝ) (k : Nat) (hthr : 0 < threshold)
    (hk : ∀ x ∈ embs.getD k [], x = 0) :
    ∀ g ∈ (groupTabsBySimilarity tabs embs threshold).1, k ∉ g.indices := by
  simp only [groupTabsBySimilarity]
  exact buildGroups_no_zero tabs embs threshold hthr k hk
    (List.range tabs.length) [] [] (by intro g hg; cases hg)

/-- Witness for the amended C10 theorem at a concrete input. -/
theorem zeroVectorItemNeverGroupedWitness :
    ((0 : ℝ) < 1/2 ∧ ∀ x ∈ ([zeroVec, unitVec].getD 0 []), x = 0) ∧
    ∀ g ∈ (groupTabsBySimilarity [c10TabZ, c10TabU] [zeroVec, unitVec]
      (1/2)).1, (0 : Nat) ∉ g.indices :=
  ⟨⟨by norm_num, by intro x hx; simpa [zeroVec] using hx⟩,
    zeroVectorItemNeverGrouped [c10TabZ, c10TabU] [zeroVec, unitVec] (1/2) 0
      (by norm_num) (by intro x hx; simpa [zeroVec] using hx)⟩

/-- Claim C4: the claim states that a model-load step yielding a session
with an empty output-name list must drive the machine to `ERROR` with
the model-load stage (`SESSION_READY`, the spec's `MODEL_READY`)
recorded, and that `WARMED_UP` is never reached in such a run.  The code
does neither: `loadModel` never inspects the name lists, and
`validateMilestone` both treats the empty JS array as truthy and only
logs its verdict without blocking the transition.  Evaluating the
embedded initialization on an environment whose created session has an
empty output-name list (everything else succeeding) shows the run
passing through every milestone — `WARMED_UP` included — to `READY`,
with no error stage recorded, while the session milestone check even
reports success. -/
theorem emptyOutputNamesReachesReady :
    (performInitialization envEmptyOutputNames).currentState =
      LifecycleState.READY ∧
    (performInitialization envEmptyOutputNames).trace =
      [LifecycleState.BOOT, LifecycleState.ORT_CONFIGURED,
        LifecycleState.WASM_READY, LifecycleState.SESSION_READY,
        LifecycleState.TOKENIZER_READY, LifecycleState.WARMED_UP,
        LifecycleState.READY] ∧
    (performInitialization envEmptyOutputNames).errorStage = none ∧
    emptyOutputSession.outputNames = [] ∧
    validateSessionMilestone (some emptyOutputSession) = true := by
  set_option maxRecDepth 8000 in
  exact ⟨rfl, rfl, rfl, rfl, rfl⟩

/-- Claim C5 counterexample: after an initialization run whose warm-up
inference fails, the processor rests in `ERROR` — a state other than
`READY` — with `modelReady = true` and a session present.  A direct
`generateEmbedding` call in that state does not fail with the not-ready
error: it computes and caches an embedding, growing the cache by one
entry.  The guard tests `modelReady`/`session`, not the lifecycle
state (only the message-handler entry points test the state). -/
theorem embedSucceedsInErrorState :
    (performInitialization envWarmupFails).currentState =
      LifecycleState.ERROR ∧
    (performInitialization envWarmupFails).currentState ≠
      LifecycleState.READY ∧
    (performInitialization envWarmupFails).modelReady = true ∧
    (generateEmbedding (performInitialization envWarmupFails) zeroInfer
      "hello").1.isOk = true ∧
    (generateEmbedding (performInitialization envWarmupFails) zeroInfer
      "hello").2.cache.length =
      (performInitialization envWarmupFails).cache.length + 1 := by
  set_option maxRecDepth 8000 in
  exact ⟨rfl, by decide, rfl, rfl, rfl⟩

/-- Claim C5 (amended): `generateEmbedding` fails with the not-ready
error and leaves the processor — cache included — unchanged whenever the
guard `!this.modelReady || !this.session` holds, which covers `BOOT` and
every state before the tokenizer stage completes (`modelReady` is only
set after `TOKENIZER_READY`).  In later non-`READY` states reached with
`modelReady = true`, such as `ERROR` after a failed warm-up, the direct
call does not fail (see the counterexample). -/
theorem embedNotReadyGuard (p : Processor) (infer : String → Option (List ℝ))
    (text : String) (h : p.modelReady = false ∨ p.session = none) :
    generateEmbedding p infer text = (Except.error "AI model not ready", p) := by
  cases hm : p.modelReady with
  | false => simp only [generateEmbedding, hm]
  | true =>
    rcases h with h | h
    · rw [hm] at h; cases h
    · simp only [generateEmbedding, hm, h]

/-- Witness for the amended C5 theorem: the freshly constructed
processor in `BOOT` with `modelReady = false`. -/
theorem embedNotReadyGuardWitness :
    (initialProcessor.modelReady = false ∨ initialProcessor.session = none) ∧
    generateEmbedding initialProcessor zeroInfer "x" =
      (Except.error "AI model not ready", initialProcessor) :=
  ⟨Or.inl rfl, embedNotReadyGuard initialProcessor zeroInfer "x" (Or.inl rfl)⟩

/-- Claim C6 (amended): the `RealAIProcessor` cache obeys the bound —
starting from at most 500 entries, no `generateEmbedding` call leaves
more than 500, and inserting a fresh key into a full 500-entry cache
appends the new entry at the end while evicting exactly the oldest
(head, first-inserted) entry; eviction follows insertion order, not
access order.  The `SimpleAIProcessor` cache cited by the same claim
has no eviction at all and violates the bound (see the
counterexample). -/
theorem realCacheBounded (p : Processor) (infer : String → Option (List ℝ))
    (text : String) (hlen : p.cache.length ≤ 500) :
    (generateEmbedding p infer text).2.cache.length ≤ 500 ∧
    ∀ e, p.cache.length = 500 → p.cache.lookup text = none →
      infer text = some e → p.modelReady = true → p.session ≠ none →
      (generateEmbedding p infer text).2.cache =
        p.cache.tail ++ [(text, e)] := by
  constructor
  · cases hm : p.modelReady with
    | false => simp only [generateEmbedding, hm]; exact hlen
    | true =>
      cases hs : p.session with
      | none => simp only [generateEmbedding, hm, hs]; exact hlen
      | some s =>
        simp only [generateEmbedding, hm, hs]
        cases hl : p.cache.lookup text with
        | some v => exact hlen
        | none =>
          cases hi : infer text with
          | none => exact hlen
          | some e =>
            show (if 500 < (p.cache ++ [(text, e)]).length
                then (p.cache ++ [(text, e)]).tail
                else p.cache ++ [(text, e)]).length ≤ 500
            by_cases hc : 500 < (p.cache ++ [(text, e)]).length
            · rw [if_pos hc, List.length_tail, List.length_append]
              simp only [List.length_cons, List.length_nil]
              omega
            · rw [if_neg hc]
              exact Nat.not_lt.mp hc
  · intro e h500 hl hi hm hs
    rcases Option.ne_none_iff_exists'.mp hs with ⟨s, hs'⟩
    simp only [generateEmbedding, hm, hs', hl, hi]
    have hc : 500 < (p.cache ++ [(text, e)]).length := by
      rw [List.length_append]
      simp only [List.length_cons, List.length_nil]
      omega
    rw [if_pos hc]
    cases hcache : p.cache with
    | nil => rw [hcache] at h500; simp at h500
    | cons a l => simp

/-- Witness for the amended C6 theorem at a ready processor with a full
500-entry cache and a fresh key. -/
theorem realCacheBoundedWitness :
    (readyProcessor (cacheOfSize 500)).cache.length ≤ 500 ∧
    ((generateEmbedding (readyProcessor (cacheOfSize 500)) zeroInfer
        "fresh").2.cache.length ≤ 500 ∧
      ∀ e, (readyProcessor (cacheOfSize 500)).cache.length = 500 →
        (readyProcessor (cacheOfSize 500)).cache.lookup "fresh" = none →
        zeroInfer "fresh" = some e →
        (readyProcessor (cacheOfSize 500)).modelReady = true →
        (readyProcessor (cacheOfSize 500)).session ≠ none →
        (generateEmbedding (readyProcessor (cacheOfSize 500)) zeroInfer
          "fresh").2.cache =
          (readyProcessor (cacheOfSize 500)).cache.tail ++ [("fresh", e)]) :=
  ⟨by simp [readyProcessor, cacheOfSize],
    realCacheBounded (readyProcessor (cacheOfSize 500)) zeroInfer "fresh"
      (by simp [readyProcessor, cacheOfSize])⟩

/-- Claim C6 counterexample: the claim also covers the
`SimpleAIProcessor` cache (part of the same cited sources), and that
cache has no eviction: inserting a 501st distinct key into a full
500-entry cache leaves 501 entries, with the oldest key still at the
head, so both "cache size never exceeds 500" and "evicts exactly the
oldest-inserted key" fail for that processor. -/
theorem simpleCacheExceeds500 :
    (cacheOfSize 500).length = 500 ∧
    ((SimpleAI.generateEmbedding true (fun _ => []) (cacheOfSize 500)
      "fresh").2.map Prod.fst).length = 501 ∧
    ((SimpleAI.generateEmbedding true (fun _ => []) (cacheOfSize 500)
      "fresh").2.map Prod.fst).head? = some (aKey 0) := by
  set_option maxRecDepth 100000 in
  exact ⟨by decide, by decide, by decide⟩

lemma batchExpected_length (infer : String → Option (List ℝ)) :
    ∀ (texts : List String) (cache : List (String × List ℝ)),
      (batchExpected infer cache texts).length = texts.length := by
  intro texts
  induction texts with
  | nil => intro cache; rfl
  | cons t ts ih =>
    intro cache
    simp only [batchExpected]
    cases hl : cache.lookup t with
    | some v => simp only [List.length_cons, ih]
    | none =>
      cases hi : infer t with
      | some e => simp only [List.length_cons, ih]
      | none => simp only [List.length_cons, ih]

lemma generateEmbedding_hit {p : Processor} {s : Session}
    (infer : String → Option (List ℝ)) {text : String} {v : List ℝ}
    (hm : p.modelReady = true) (hs : p.session = some s)
    (hl : p.cache.lookup text = some v) :
    generateEmbedding p infer text = (Except.ok (some v), p) := by
  simp only [generateEmbedding, hm, hs, hl]

lemma generateEmbedding_miss_ok {p : Processor} {s : Session}
    {infer : String → Option (List ℝ)} {text : String} {e : List ℝ}
    (hm : p.modelReady = true) (hs : p.session = some s)
    (hl : p.cache.lookup text = none) (hi : infer text = some e) :
    generateEmbedding p infer text = (Except.ok (some e),
      { p with cache := if 500 < (p.cache ++ [(text, e)]).length
          then (p.cache ++ [(text, e)]).tail else p.cache ++ [(text, e)] }) := by
  simp only [generateEmbedding, hm, hs, hl, hi]

lemma generateEmbedding_miss_fail {p : Processor} {s : Session}
    {infer : String → Option (List ℝ)} {text : String}
    (hm : p.modelReady = true) (hs : p.session = some s)
    (hl : p.cache.lookup text = none) (hi : infer text = none) :
    generateEmbedding p infer text = (Except.ok none, p) := by
  simp only [generateEmbedding, hm, hs, hl, hi]

lemma generateEmbeddings_fst (infer : String → Option (List ℝ)) :
    ∀ (texts : List String) (p : Processor) (s : Session),
      p.modelReady = true → p.session = some s →
      (generateEmbeddings infer p texts).1 =
        Except.ok (batchExpected infer p.cache texts) := by
  intro texts
  induction texts with
  | nil => intro p s hm hs; rfl
  | cons t ts ih =>
    intro p s hm hs
    simp only [generateEmbeddings, batchExpected]
    cases hl : p.cache.lookup t with
    | some v =>
      rw [generateEmbedding_hit infer hm hs hl]
      have hih := ih p s hm hs
      cases hrec : generateEmbeddings infer p ts with
      | mk res p2 =>
        simp only [hrec] at hih
        simp only [hrec, hih]
    | none =>
      cases hi : infer t with
      | some e =>
        rw [generateEmbedding_miss_ok hm hs hl hi]
        have hih := ih { p with cache :=
          if 500 < (p.cache ++ [(t, e)]).length
          then (p.cache ++ [(t, e)]).tail else p.cache ++ [(t, e)] } s hm hs
        cases hrec : generateEmbeddings infer { p with cache :=
          if 500 < (p.cache ++ [(t, e)]).length
          then (p.cache ++ [(t, e)]).tail else p.cache ++ [(t, e)] } ts with
        | mk res p2 =>
          simp only [hrec] at hih
          simp only [hrec, hih]
      | none =>
        rw [generateEmbedding_miss_fail hm hs hl hi]
        have hih := ih p s hm hs
        cases hrec : generateEmbeddings infer p ts with
        | mk res p2 =>
          simp only [hrec] at hih
          simp only [hrec, hih]

/-- Claim C7: with the model ready (`modelReady` set and a session
present), batch embedding never throws — it returns `Except.ok` with
exactly one vector per input text — and any text whose embedding
computation fails internally (inference oracle `none` on a cache miss)
contributes the fixed 384-length zero vector in its position, as made
explicit by the `batchExpected` characterization the result equals. -/
theorem batchEmbeddingTotal (p : Processor) (infer : String → Option (List ℝ))
    (texts : List String) (s : Session) (hm : p.modelReady = true)
    (hs : p.session = some s) :
    (generateEmbeddings infer p texts).1 =
      Except.ok (batchExpected infer p.cache texts) ∧
    (batchExpected infer p.cache texts).length = texts.length :=
  ⟨generateEmbeddings_fst infer texts p s hm hs,
    batchExpected_length infer texts p.cache⟩

/-- Witness for the C7 theorem: a ready processor and a two-text batch
whose second text fails inference. -/
theorem batchEmbeddingTotalWitness :
    ((readyProcessor []).modelReady = true ∧
      (readyProcessor []).session = some goodSession) ∧
    ((generateEmbeddings alphaInfer (readyProcessor []) ["alpha", "beta"]).1 =
        Except.ok (batchExpected alphaInfer (readyProcessor []).cache
          ["alpha", "beta"]) ∧
      (batchExpected alphaInfer (readyProcessor []).cache
        ["alpha", "beta"]).length = (["alpha", "beta"] : List String).length) :=
  ⟨⟨rfl, rfl⟩,
    batchEmbeddingTotal (readyProcessor []) alphaInfer ["alpha", "beta"]
      goodSession rfl rfl⟩

lemma firstMax_bridge (f : α → Nat) :
    ∀ (l : List α) (x b : α),
      (if f x < f (firstMaxAux f b l) then firstMaxAux f b l else x) =
      (if f x < f b then firstMaxAux f b l else firstMaxAux f x l) := by
  intro l
  induction l with
  | nil => intro x b; simp only [firstMaxAux]
  | cons c l ih =>
    intro x b
    simp only [firstMaxAux]
    by_cases hbc : f b < f c
    · simp only [if_pos hbc]
      rw [ih x c]
      by_cases hxb : f x < f b
      · simp only [if_pos hxb, if_pos (Nat.lt_trans hxb hbc)]
      · simp only [if_neg hxb]
    · simp only [if_neg hbc]
      rw [ih x b]
      by_cases hxb : f x < f b
      · simp only [if_pos hxb]
      · have hxc : ¬ f x < f c := by omega
        simp only [if_neg hxb, if_neg hxc]

lemma head_stableInsert_scores (a : String × Nat) :
    ∀ s : List (String × Nat),
      (stableInsert scoreGT a s).head? =
        some (match s with
          | [] => a
          | b :: _ => if a.2 < b.2 then b else a)
  | [] => rfl
  | b :: l => by
    simp only [stableInsert, scoreGT]
    by_cases h : a.2 < b.2
    · simp [h]
    · simp [h]

lemma head_stableSort_scores :
    ∀ (l : List (String × Nat)) (x : String × Nat),
      (stableSort scoreGT (x :: l)).head? =
        some (firstMaxAux (fun p => p.2) x l) := by
  intro l
  induction l with
  | nil => intro x; rfl
  | cons b l ih =>
    intro x
    rw [stableSort]
    cases hsrt : stableSort scoreGT (b :: l) with
    | nil =>
      have hs := ih b
      rw [hsrt] at hs
      cases hs
    | cons hd tl =>
      have hs := ih b
      rw [hsrt] at hs
      have hhd : hd = firstMaxAux (fun p => p.2) b l := by
        simpa using hs
      rw [head_stableInsert_scores]
      simp only [hhd]
      have hb := firstMax_bridge (fun p : String × Nat => p.2) l x b
      simp only [firstMaxAux]
      exact congrArg some hb

example : (stableSort scoreGT [("a", 2), ("b", 3), ("c", 3)]).head? =
    some ("b", 3) := by decide

set_option maxHeartbeats 2000000 in
/-- Claim C8 (amended): for every group corpus the label generator
selects the category with the highest keyword score — ties resolved by
taxonomy declaration order, the JS stable sort's first element being the
earliest maximum — and prefixes its fixed emoji when the score is
positive; with no positive score it falls back to a title-cased version
of the FIRST distinct domain of the group in encounter order (the head
of the deduplicated domain list), not the most common domain as the
claim states; with no resolvable domain it returns the placeholder
label. -/
theorem extractCommonThemeCharacterization :
    (∀ titles domains : List String,
      extractCommonTheme titles domains = labelSpec titles domains) ∧
    ∀ (ph : String → Option String) (gs : List ClusterGroup),
      (generateGroupLabels ph gs).map (fun g => g.label) =
        gs.map (fun g => labelSpec (g.tabs.map (fun t => t.title))
          (groupDomains ph g.tabs)) := by
  have hmain : ∀ titles domains : List String,
      extractCommonTheme titles domains = labelSpec titles domains := by
    intro titles domains
    rw [extractCommonTheme, labelSpec]
    cases hsc : categoryScores (allGroupText titles domains) with
    | nil =>
      exfalso
      have hlen := congrArg List.length hsc
      simp [categoryScores, categories] at hlen
    | cons s rest =>
      rw [head_stableSort_scores]
  refine ⟨hmain, fun ph gs => ?_⟩
  simp only [generateGroupLabels, List.map_map]
  apply List.map_congr_left
  intro g _
  simp only [Function.comp]
  exact hmain (g.tabs.map (fun t => t.title)) (groupDomains ph g.tabs)

set_option maxRecDepth 8000 in
/-- Claim C8 counterexample: a group of three tabs — one on `azz.com`
followed by two on `qzz.com`, no taxonomy keyword matching — is labeled
from the FIRST distinct domain (`azz.com`, giving `🌐 Azz`), not from
the most common domain (`qzz.com`, which would give `🌐 Qzz`): the code
reads `domains[0]` of the deduplicated domain set and never counts
occurrences. -/
theorem labelUsesFirstDomainNotMostCommon :
    (generateGroupLabels c8Host [c8Group]).map (fun g => g.label) =
      ["🌐 Azz"] ∧
    mostCommonDomain c8Host c8Group.tabs = some "qzz.com" ∧
    ("🌐 " ++ JsStr.capitalize (JsStr.beforeChar '.' "qzz.com")) = "🌐 Qzz" ∧
    ("🌐 Azz" : String) ≠ "🌐 Qzz" := by
  refine ⟨by decide, by decide, by decide, by decide⟩

namespace Background

lemma addToBucket_fst (key : String) (t : Tab) :
    ∀ m : List (String × List Tab),
      (addToBucket key t m).map Prod.fst =
        if key ∈ m.map Prod.fst then m.map Prod.fst
        else m.map Prod.fst ++ [key] := by
  intro m
  induction m with
  | nil => simp [addToBucket]
  | cons e rest ih =>
    obtain ⟨k', ts'⟩ := e
    simp only [addToBucket]
    by_cases hk : k' = key
    · subst hk
      simp
    · rw [if_neg hk]
      simp only [List.map_cons, ih]
      by_cases hmem : key ∈ rest.map Prod.fst
      · rw [if_pos hmem, if_pos (by simp [hmem])]
      · rw [if_neg hmem, if_neg (by
          simp only [List.mem_cons]
          rintro (h | h)
          · exact hk h.symm
          · exact hmem h), List.cons_append]

lemma addToBucket_fst_nodup {key : String} {t : Tab}
    {m : List (String × List Tab)} (h : (m.map Prod.fst).Nodup) :
    ((addToBucket key t m).map Prod.fst).Nodup := by
  rw [addToBucket_fst]
  by_cases hmem : key ∈ m.map Prod.fst
  · rw [if_pos hmem]; exact h
  · rw [if_neg hmem]
    simp only [List.nodup_append, List.nodup_cons, List.nodup_nil]
    exact ⟨h, by simp, by simpa using hmem⟩

lemma mem_addToBucket (key : String) (t : Tab) :
    ∀ (m : List (String × List Tab)), (m.map Prod.fst).Nodup →
      ∀ e ∈ addToBucket key t m,
        (e ∈ m ∧ e.1 ≠ key) ∨
        (∃ ts, (key, ts) ∈ m ∧ e = (key, ts ++ [t])) ∨
        (e = (key, [t]) ∧ key ∉ m.map Prod.fst) := by
  intro m
  induction m with
  | nil =>
    intro _ e he
    simp only [addToBucket, List.mem_singleton] at he
    exact Or.inr (Or.inr ⟨he, by simp⟩)
  | cons p rest ih =>
    obtain ⟨k', ts'⟩ := p
    intro hnd e he
    simp only [List.map_cons, List.nodup_cons] at hnd
    by_cases hk : k' = key
    · subst hk
      simp only [addToBucket, if_pos rfl] at he
      rcases List.mem_cons.mp he with he | he
      · exact Or.inr (Or.inl ⟨ts', List.mem_cons_self _ _, he⟩)
      · refine Or.inl ⟨List.mem_cons_of_mem _ he, fun h1 => ?_⟩
        exact hnd.1 (h1 ▸ List.mem_map_of_mem Prod.fst he)
    · simp only [addToBucket, if_neg hk] at he
      rcases List.mem_cons.mp he with he | he
      · exact Or.inl ⟨by rw [he]; exact List.mem_cons_self _ _,
          by rw [he]; exact hk⟩
      · rcases ih hnd.2 e he with h | h | h
        · exact Or.inl ⟨List.mem_cons_of_mem _ h.1, h.2⟩
        · obtain ⟨ts, hts, hets⟩ := h
          exact Or.inr (Or.inl ⟨ts, List.mem_cons_of_mem _ hts, hets⟩)
        · refine Or.inr (Or.inr ⟨h.1, ?_⟩)
          simp only [List.map_cons, List.mem_cons]
          rintro (h1 | h1)
          · exact hk h1.symm
          · exact h.2 h1

end Background

lemma stableInsert_perm (prec : α → α → Bool) (a : α) :
    ∀ s : List α, (stableInsert prec a s).Perm (a :: s) := by
  intro s
  induction s with
  | nil => exact List.Perm.refl _
  | cons b l ih =>
    simp only [stableInsert]
    by_cases h : prec b a
    · rw [if_pos h]
      exact (ih.cons b).trans (List.Perm.swap a b l)
    · rw [if_neg h]

lemma stableSort_perm (prec : α → α → Bool) :
    ∀ l : List α, (stableSort prec l).Perm l := by
  intro l
  induction l with
  | nil => exact List.Perm.refl _
  | cons a l ih =>
    exact (stableInsert_perm prec a (stableSort prec l)).trans (ih.cons a)

namespace Background

lemma foldl_buckets_spec (ph : String → Option String) :
    ∀ (rest processed : List Tab) (m : List (String × List Tab)),
      (m.map Prod.fst).Nodup →
      (∀ e ∈ m, e.2 = processed.filter
        (fun t => domainKey ph t.url == e.1)) →
      (∀ t ∈ processed, domainKey ph t.url ∈ m.map Prod.fst) →
      ((List.foldl (fun acc t => addToBucket (domainKey ph t.url) t acc) m
          rest).map Prod.fst).Nodup ∧
      (∀ e ∈ List.foldl (fun acc t => addToBucket (domainKey ph t.url) t acc)
          m rest,
        e.2 = (processed ++ rest).filter
          (fun t => domainKey ph t.url == e.1)) ∧
      (∀ t ∈ processed ++ rest, domainKey ph t.url ∈
        (List.foldl (fun acc t => addToBucket (domainKey ph t.url) t acc) m
          rest).map Prod.fst) := by
  intro rest
  induction rest with
  | nil =>
    intro processed m h1 h2 h3
    simp only [List.foldl_nil, List.append_nil]
    exact ⟨h1, h2, h3⟩
  | cons t rest ih =>
    intro processed m h1 h2 h3
    simp only [List.foldl_cons]
    have h1' : ((addToBucket (domainKey ph t.url) t m).map Prod.fst).Nodup :=
      addToBucket_fst_nodup h1
    have h2' : ∀ e ∈ addToBucket (domainKey ph t.url) t m,
        e.2 = (processed ++ [t]).filter
          (fun u => domainKey ph u.url == e.1) := by
      intro e he
      rcases mem_addToBucket (domainKey ph t.url) t m h1 e he with h | h | h
      · have hne : (domainKey ph t.url == e.1) = false :=
          beq_eq_false_iff_ne.mpr (fun hx => h.2 hx.symm)
        rw [List.filter_append, h2 e h.1]
        simp [List.filter_cons, hne]
      · obtain ⟨ts, hts, hets⟩ := h
        have he1 : e.1 = domainKey ph t.url := by rw [hets]
        have he2 : e.2 = ts ++ [t] := by rw [hets]
        have hts2 : ts = processed.filter
            (fun u => domainKey ph u.url == domainKey ph t.url) :=
          h2 (domainKey ph t.url, ts) hts
        rw [he2, he1, List.filter_append, ← hts2]
        simp [List.filter_cons]
      · have he1 : e.1 = domainKey ph t.url := by rw [h.1]
        have he2 : e.2 = [t] := by rw [h.1]
        have hnil : processed.filter
            (fun u => domainKey ph u.url == domainKey ph t.url) = [] := by
          rw [List.filter_eq_nil_iff]
          intro u hu hbeq
          apply h.2
          rw [← eq_of_beq hbeq]
          exact h3 u hu
        rw [he2, he1, List.filter_append, hnil]
        simp [List.filter_cons]
    have h3' : ∀ u ∈ processed ++ [t], domainKey ph u.url ∈
        ((addToBucket (domainKey ph t.url) t m).map Prod.fst) := by
      intro u hu
      rw [addToBucket_fst]
      by_cases hmem : domainKey ph t.url ∈ m.map Prod.fst
      · rw [if_pos hmem]
        rcases List.mem_append.mp hu with hu | hu
        · exact h3 u hu
        · rw [List.mem_singleton.mp hu]
          exact hmem
      · rw [if_neg hmem]
        rcases List.mem_append.mp hu with hu | hu
        · exact List.mem_append_left _ (h3 u hu)
        · rw [List.mem_singleton.mp hu]
          exact List.mem_append_right _ (List.mem_singleton_self _)
    have hres := ih (processed ++ [t]) (addToBucket (domainKey ph t.url) t m)
      h1' h2' h3'
    simpa [List.append_assoc] using hres

end Background

/-- Claim C9: the domain fallback grouping is a total function of the
tab list and URL oracle (it cannot throw: the embedded function is
total, with unparsable URLs routed through the scheme-prefix catch
branch), every returned group has at least two members with `count`
equal to its tab count, each group consists of exactly the input tabs
whose registrable-domain key equals the group's domain, group domains
are pairwise distinct, and no tab belongs to two groups with different
domains. -/
theorem domainGroupingPartition (ph : String → Option String)
    (tabs : List Tab) :
    (∀ g ∈ Background.groupTabsByDomain ph tabs,
      2 ≤ g.count ∧ g.count = g.tabs.length ∧
      g.tabs = tabs.filter
        (fun t => Background.domainKey ph t.url == g.domain) ∧
      g.label = Background.generateGroupLabel g.domain g.tabs) ∧
    (Background.groupTabsByDomain ph tabs).Pairwise
      (fun a b => a.domain ≠ b.domain) ∧
    (∀ g ∈ Background.groupTabsByDomain ph tabs,
      ∀ g' ∈ Background.groupTabsByDomain ph tabs, g.domain ≠ g'.domain →
        ∀ t ∈ g.tabs, t ∉ g'.tabs) := by
  obtain ⟨hnd, hent, hcov⟩ := Background.foldl_buckets_spec ph tabs [] []
    (by simp) (by intro e he; simp at he) (by intro t ht; simp at ht)
  simp only [List.nil_append] at hent hcov
  have hB : Background.domainBuckets ph tabs =
      List.foldl (fun acc t =>
        Background.addToBucket (Background.domainKey ph t.url) t acc)
        [] tabs := rfl
  rw [← hB] at hnd hent hcov
  have hmem : ∀ g : Background.DomainGroup,
      g ∈ Background.groupTabsByDomain ph tabs ↔
      (g ∈ ((Background.domainBuckets ph tabs).map (fun e =>
        (⟨Background.generateGroupLabel e.1 e.2, e.1, e.2, e.2.length⟩ :
          Background.DomainGroup))) ∧ 2 ≤ g.count) := by
    intro g
    rw [Background.groupTabsByDomain, (stableSort_perm _ _).mem_iff,
      List.mem_filter]
    simp
  have hone : ∀ g ∈ Background.groupTabsByDomain ph tabs,
      2 ≤ g.count ∧ g.count = g.tabs.length ∧
      g.tabs = tabs.filter
        (fun t => Background.domainKey ph t.url == g.domain) ∧
      g.label = Background.generateGroupLabel g.domain g.tabs := by
    intro g hg
    rw [hmem] at hg
    obtain ⟨hgm, hcount⟩ := hg
    obtain ⟨e, heB, hge⟩ := List.mem_map.mp hgm
    subst hge
    exact ⟨hcount, rfl, hent e heB, rfl⟩
  refine ⟨hone, ?_, ?_⟩
  · rw [Background.groupTabsByDomain]
    refine ((stableSort_perm _ _).pairwise_iff
      (fun h hba => h hba.symm)).mpr ?_
    refine List.Pairwise.sublist (List.filter_sublist _) ?_
    rw [List.pairwise_map]
    have hnd' := hnd
    rw [List.Nodup, List.pairwise_map] at hnd'
    exact hnd'
  · intro g hg g' hg' hne t htg htg'
    have h1 := (hone g hg).2.2.1
    have h2 := (hone g' hg').2.2.1
    rw [h1, List.mem_filter] at htg
    rw [h2, List.mem_filter] at htg'
    exact hne ((eq_of_beq htg.2).symm.trans (eq_of_beq htg'.2))

/-- Witness for the C9 theorem at a concrete input: two `ex.com` tabs
(one behind `www.`) form the single returned group; the `solo.org`
singleton is filtered out. -/
theorem domainGroupingPartitionWitness :
    c9ExpectedGroup ∈ Background.groupTabsByDomain c9Host c9Tabs ∧
    (2 ≤ c9ExpectedGroup.count ∧
      c9ExpectedGroup.count = c9ExpectedGroup.tabs.length ∧
      c9ExpectedGroup.tabs = c9Tabs.filter
        (fun t => Background.domainKey c9Host t.url ==
          c9ExpectedGroup.domain) ∧
      c9ExpectedGroup.label = Background.generateGroupLabel
        c9ExpectedGroup.domain c9ExpectedGroup.tabs) :=
  ⟨by decide, (domainGroupingPartition c9Host c9Tabs).1 c9ExpectedGroup
    (by decide)⟩
